import Mathlib

/-!
Shallow embedding of the Domain-Applications repository (src/Test.py and
src/mainApp.py) for verification of its specification.

Strings are modelled as Lean `String` (a list of characters); only the ASCII
behaviour of Python's `str.upper` / `str.lower` / `str.strip` is modelled, which
is exact on the data the program handles.  `pandas.Series.str.contains` is
modelled as literal substring containment (the program only ever passes plain
keyword text, on which Python's default regex search coincides with substring
search); `na=False` is modelled by an `Option String` description where `none`
never matches.  Dataframes are modelled as `List Row`; a boolean mask plus
`df[mask]` is modelled as `List.filter` with the row predicate the mask computes.
-/

/-- The six ASCII characters matched by Python's regex class `\s` (and stripped
by `str.strip()`). -/
def isSpaceCh (c : Char) : Bool :=
  c = ' ' || c = '\t' || c = '\n' || c = '\r' || c = '\x0b' || c = '\x0c'

/-- ASCII single-character uppercasing, as Python's `str.upper` acts on ASCII. -/
def upCh (c : Char) : Char :=
  if 'a' ≤ c ∧ c ≤ 'z' then Char.ofNat (c.toNat - 32) else c

/-- ASCII single-character lowercasing, as Python's `str.lower` acts on ASCII. -/
def loCh (c : Char) : Char :=
  if 'A' ≤ c ∧ c ≤ 'Z' then Char.ofNat (c.toNat + 32) else c

/-- Python `str.upper()` (ASCII fragment). -/
def pyUpper (s : String) : String := String.mk (s.data.map upCh)

/-- Python `str.lower()` (ASCII fragment). -/
def pyLower (s : String) : String := String.mk (s.data.map loCh)

/-- Drop leading and trailing whitespace from a character list. -/
def stripList (l : List Char) : List Char :=
  ((l.dropWhile isSpaceCh).reverse.dropWhile isSpaceCh).reverse

/-- Python `str.strip()`. -/
def pyStrip (s : String) : String := String.mk (stripList s.data)

/-- `prefAt p l` holds when the character list `p` is an initial segment of `l`. -/
def prefAt : List Char → List Char → Bool
  | [], _ => true
  | _ :: _, [] => false
  | a :: as, b :: bs => a = b && prefAt as bs

/-- Index of the first occurrence of `pat` as a contiguous sublist of `l`
(`none` when there is none); the search Python's `str.find`/`in` performs. -/
def firstOcc (pat : List Char) : List Char → Option Nat
  | [] => if prefAt pat [] then some 0 else none
  | c :: t => if prefAt pat (c :: t) then some 0 else (firstOcc pat t).map (fun n => n + 1)

/-- Python's substring test `pat in s` (also the semantics of
`Series.str.contains` on the literal keyword text this program passes). -/
def strContains (s pat : String) : Bool := (firstOcc pat.data s.data).isSome

/-- The connective words of the boolean keyword grammar, as the source's list
literal `["AND", "OR", "NOT"]`. -/
def connTokens : List String := ["AND", "OR", "NOT"]

/-- The regex alternation `(AND|OR|NOT)` matched at the head of a character
list; returns the connective matched and the remaining characters.  The three
alternatives begin with distinct letters, so treating the alternation as a
first-match case split is exact. -/
def matchConn : List Char → Option (String × List Char)
  | 'A' :: 'N' :: 'D' :: rest => some ("AND", rest)
  | 'O' :: 'R' :: rest => some ("OR", rest)
  | 'N' :: 'O' :: 'T' :: rest => some ("NOT", rest)
  | _ => none

/-- Drop a (possibly empty) run of whitespace characters. -/
def skipSp : List Char → List Char
  | [] => []
  | c :: rest => if isSpaceCh c then skipSp rest else c :: rest

/-- Try to match the pattern `\s+(AND|OR|NOT)\s+` at the head of the list:
one or more spaces, a connective, one or more spaces (both runs maximal, as the
greedy `\s+` consumes).  On success returns the captured connective and the
characters after the match. -/
def tryConn : List Char → Option (String × List Char)
  | [] => none
  | c :: rest =>
    if isSpaceCh c then
      match matchConn (skipSp rest) with
      | some (w, r2) =>
        match r2 with
        | d :: r3 => if isSpaceCh d then some (w, skipSp r3) else none
        | [] => none
      | none => none
    else none

/-- Worker for `re.split(r'\s+(AND|OR|NOT)\s+', query)`: scans left to right for
the leftmost match, emitting the piece before it and the captured connective,
then continues after the match.  `acc` is the reversed current piece; the fuel
argument bounds the recursion (every step consumes at least one character, so
`length + 1` fuel is never exhausted). -/
def reSplitAux : Nat → List Char → List Char → List String
  | 0, acc, l => [String.mk (acc.reverse ++ l)]
  | _ + 1, acc, [] => [String.mk acc.reverse]
  | fuel + 1, acc, c :: rest =>
    match tryConn (c :: rest) with
    | some (w, rem) => String.mk acc.reverse :: w :: reSplitAux fuel [] rem
    | none => reSplitAux fuel (c :: acc) rest

/-- `re.split(r'\s+(AND|OR|NOT)\s+', s)`: the pieces between matches
interleaved with the captured connectives. -/
def reSplitConn (s : String) : List String :=
  reSplitAux (s.data.length + 1) [] s.data

/-- The token list of `filter_descriptions` (src/Test.py lines 44-49): uppercase
the query, split on whitespace-delimited connectives, strip each token and drop
the empty ones (`[token.strip() for token in tokens if token.strip()]`). -/
def tokensOf (query : String) : List String :=
  ((reSplitConn (pyUpper query)).map pyStrip).filter (fun t => t ≠ "")

/-- The keyword tokens: `[token for token in tokens if token not in ["AND", "OR", "NOT"]]`. -/
def keywordsOf (tokens : List String) : List String :=
  tokens.filter (fun t => t ∉ connTokens)

/-- `df['Description'].str.upper().str.contains(pat, na=False)` evaluated at one
row: a missing description never matches; otherwise the uppercased description
must contain `pat`. -/
def containsUpper (pat : String) (desc : Option String) : Bool :=
  match desc with
  | none => false
  | some d => strContains (pyUpper d) pat

/-- Worker for Python `s.split(sep)` with a non-empty separator: repeatedly cut
at the first occurrence of `sep`.  Fuel as in `reSplitAux`. -/
def pySplitAux (pat : List Char) : Nat → List Char → List String
  | 0, s => [String.mk s]
  | fuel + 1, s =>
    match firstOcc pat s with
    | none => [String.mk s]
    | some i => String.mk (s.take i) :: pySplitAux pat fuel (s.drop (i + pat.length))

/-- Python `s.split(pat)` for a non-empty separator `pat`. -/
def pySplit (s pat : String) : List String :=
  pySplitAux pat.data (s.data.length + 1) s.data

/-- A timestamp: calendar date plus seconds elapsed since that day's midnight
(pandas `Timestamp` / Python `datetime` resolution sufficient for the program;
`sec = 0` is midnight, e.g. `datetime(y, m, 1)`). -/
structure DT where
  year : Nat
  month : Nat
  day : Nat
  sec : Nat
deriving DecidableEq

/-- One transaction line of the loaded dataset (a dataframe row after the
loader's preprocessing: cancelled invoices removed, `TotalPrice` derivable from
quantity and unit price). -/
structure Row where
  invoiceNo : String
  invoiceDate : DT
  description : Option String
  quantity : Int
  unitPrice : ℚ
  country : String
  customerId : Option Nat
deriving DecidableEq

/-- The `TotalPrice` column: `Quantity * UnitPrice`. -/
def totalPrice (r : Row) : ℚ := (r.quantity : ℚ) * r.unitPrice

/-- The per-description predicate that `filter_descriptions` (src/Test.py lines
41-82) evaluates on each row: query uppercased, tokenized; one token → plain
substring search; a query whose tokens contain `AND` → all keywords must appear;
else `OR` → at least one keyword; else `NOT` → the uppercased query is split on
every occurrence of `"NOT"`, the stripped part before the first cut must appear
and the stripped part after the first cut (up to the second occurrence) must
not; otherwise the fallback keeps every row. -/
def testQuery (query : String) (desc : Option String) : Bool :=
  if (tokensOf query).length = 1 then
    containsUpper ((tokensOf query).headD "") desc
  else if "AND" ∈ tokensOf query then
    (keywordsOf (tokensOf query)).all (fun kw => containsUpper kw desc)
  else if "OR" ∈ tokensOf query then
    (keywordsOf (tokensOf query)).any (fun kw => containsUpper kw desc)
  else if "NOT" ∈ tokensOf query then
    containsUpper (pyStrip ((pySplit (pyUpper query) "NOT").headD "")) desc &&
      !(containsUpper
          (if 1 < (pySplit (pyUpper query) "NOT").length then
            pyStrip ((pySplit (pyUpper query) "NOT").getD 1 "")
          else "") desc)
  else true

/-- `filter_descriptions(df, query)` (src/Test.py lines 41-82): each branch
filters the rows by that branch's mask; the fallback returns the rows
unfiltered. -/
def filter_descriptions (rows : List Row) (query : String) : List Row :=
  if (tokensOf query).length = 1 then
    rows.filter (fun r => containsUpper ((tokensOf query).headD "") r.description)
  else if "AND" ∈ tokensOf query then
    rows.filter (fun r => (keywordsOf (tokensOf query)).all (fun kw => containsUpper kw r.description))
  else if "OR" ∈ tokensOf query then
    rows.filter (fun r => (keywordsOf (tokensOf query)).any (fun kw => containsUpper kw r.description))
  else if "NOT" ∈ tokensOf query then
    rows.filter (fun r =>
      containsUpper (pyStrip ((pySplit (pyUpper query) "NOT").headD "")) r.description &&
        !(containsUpper
            (if 1 < (pySplit (pyUpper query) "NOT").length then
              pyStrip ((pySplit (pyUpper query) "NOT").getD 1 "")
            else "") r.description))
  else rows

/-- `calendar.month_name[1..12]`. -/
def monthNames : List String :=
  ["January", "February", "March", "April", "May", "June",
   "July", "August", "September", "October", "November", "December"]

/-- `calendar.month_abbr[1..12]`. -/
def monthAbbrs : List String :=
  ["Jan", "Feb", "Mar", "Apr", "May", "Jun",
   "Jul", "Aug", "Sep", "Oct", "Nov", "Dec"]

/-- `month_name_to_number` (src/Test.py lines 29-35): strip and lowercase the
input, then scan `i = 1..12` returning the first `i` whose full month name or
three-letter abbreviation (lowercased) equals the input; `None` otherwise. -/
def month_name_to_number (month_name : String) : Option Nat :=
  (List.range' 1 12).find? (fun i =>
    pyLower (pyStrip month_name) == pyLower (monthNames.getD (i - 1) "") ||
    pyLower (pyStrip month_name) == pyLower (monthAbbrs.getD (i - 1) ""))

/-- Gregorian leap-year test, as Python's `calendar`/`datetime` arithmetic. -/
def isLeap (y : Nat) : Bool :=
  y % 4 = 0 && (y % 100 ≠ 0 || y % 400 = 0)

/-- Days in a calendar month. -/
def daysInMonth (y m : Nat) : Nat :=
  if m = 2 then (if isLeap y then 29 else 28)
  else if m = 4 ∨ m = 6 ∨ m = 9 ∨ m = 11 then 30
  else 31

/-- `d - timedelta(days=1)`: the previous calendar day, time of day unchanged. -/
def predDay (d : DT) : DT :=
  if 1 < d.day then ⟨d.year, d.month, d.day - 1, d.sec⟩
  else if 1 < d.month then ⟨d.year, d.month - 1, daysInMonth d.year (d.month - 1), d.sec⟩
  else ⟨d.year - 1, 12, 31, d.sec⟩

/-- `last_month_end` (src/mainApp.py line 45):
`datetime(max_date.year, max_date.month, 1) - timedelta(days=1)`. -/
def last_month_end (maxDate : DT) : DT :=
  predDay ⟨maxDate.year, maxDate.month, 1, 0⟩

/-- `last_month_start` (src/mainApp.py line 46):
`datetime(last_month_end.year, last_month_end.month, 1)`. -/
def last_month_start (maxDate : DT) : DT :=
  ⟨(last_month_end maxDate).year, (last_month_end maxDate).month, 1, 0⟩

/-- The date-filter extraction (src/mainApp.py lines 42-48): when the lowercased
sentence contains the literal phrase `"last month"`, the inclusive range
`(last_month_start, last_month_end)` computed from the dataset's maximum
invoice date; otherwise no date filter. -/
def date_filter (query : String) (maxDate : DT) : Option (DT × DT) :=
  if strContains (pyLower query) "last month" = true then
    some (last_month_start maxDate, last_month_end maxDate)
  else none

/-- Stated from the specification's words, for comparison with the code: the
first day of the calendar month immediately preceding the month containing
`M`. -/
def specPrevMonthStart (M : DT) : DT :=
  if M.month = 1 then ⟨M.year - 1, 12, 1, 0⟩ else ⟨M.year, M.month - 1, 1, 0⟩

/-- Stated from the specification's words: `(first day of the month containing
M) - 1 day`. -/
def specPrevMonthEnd (M : DT) : DT :=
  predDay ⟨M.year, M.month, 1, 0⟩

/-- Chronological order on timestamps (pandas comparison of `Timestamp`s):
lexicographic on year, month, day, then seconds of day. -/
def dtLe (a b : DT) : Bool :=
  if a.year = b.year then
    if a.month = b.month then
      if a.day = b.day then decide (a.sec ≤ b.sec)
      else decide (a.day < b.day)
    else decide (a.month < b.month)
  else decide (a.year < b.year)

/-- The date-range row filter (src/mainApp.py lines 54-56):
`df[(df['InvoiceDate'] >= start_date) & (df['InvoiceDate'] <= end_date)]`. -/
def applyDateFilter (rows : List Row) (s e : DT) : List Row :=
  rows.filter (fun r => dtLe s r.invoiceDate && dtLe r.invoiceDate e)

/-- The prefix of `s` strictly before the first occurrence of `pat` (all of `s`
when `pat` does not occur).  Spec-side helper used to state claims about the
`NOT` branch. -/
def cutBefore (s pat : String) : String :=
  match firstOcc pat.data s.data with
  | some i => String.mk (s.data.take i)
  | none => s

/-- The suffix of `s` strictly after the first occurrence of `pat` (empty when
`pat` does not occur).  Spec-side helper. -/
def cutAfter (s pat : String) : String :=
  match firstOcc pat.data s.data with
  | some i => String.mk (s.data.drop (i + pat.data.length))
  | none => ""

/-- The grouping key of the Month aggregation (src/Test.py lines 136-143):
`(Year, Month)` of the invoice date. -/
def monthKey (r : Row) : Nat × Nat := (r.invoiceDate.year, r.invoiceDate.month)

/-- Ascending order on `(Year, Month)` keys, as `groupby(["Year", "Month"])`
sorts its group keys. -/
def keyLe (a b : Nat × Nat) : Prop :=
  a.1 < b.1 ∨ (a.1 = b.1 ∧ a.2 ≤ b.2)

instance keyLeDec : DecidableRel keyLe := fun a b => by
  unfold keyLe; exact inferInstance

/-- The distinct `(Year, Month)` keys of a row set, in ascending order. -/
def monthGroupKeys (rows : List Row) : List (Nat × Nat) :=
  List.insertionSort keyLe ((rows.map monthKey).dedup)

/-- `groupby(["Year", "Month"], as_index=False)["TotalPrice"].sum()`
(src/Test.py line 143): one output row per distinct `(Year, Month)` key,
carrying the sum of `TotalPrice` over the rows with that key. -/
def sales_per_month (rows : List Row) : List ((Nat × Nat) × ℚ) :=
  (monthGroupKeys rows).map
    (fun k => (k, ((rows.filter (fun r => monthKey r = k)).map totalPrice).sum))

/-- `total_sales = df_filtered['TotalPrice'].sum()` (src/mainApp.py line 59). -/
def total_sales (rows : List Row) : ℚ := (rows.map totalPrice).sum

/-- `total_transactions = df_filtered['InvoiceNo'].nunique()`
(src/mainApp.py line 60). -/
def total_transactions (rows : List Row) : Nat :=
  (rows.map (fun r => r.invoiceNo)).dedup.length

/-- `avg_transaction = total_sales / total_transactions if total_transactions > 0 else 0`
(src/mainApp.py line 61). -/
def avg_transaction (rows : List Row) : ℚ :=
  if 0 < total_transactions rows then
    total_sales rows / (total_transactions rows : ℚ)
  else 0

/-! ## Basic lemmas about the embedding -/

theorem data_mk (l : List Char) : (String.mk l).data = l := rfl

/-- The ten ASCII digit characters, for stating "token consists of digits". -/
def digitChars : List Char := ['0', '1', '2', '3', '4', '5', '6', '7', '8', '9']

theorem matchConn_mem {l : List Char} {w : String} {r : List Char}
    (h : matchConn l = some (w, r)) : w ∈ connTokens := by
  unfold matchConn at h
  split at h <;> simp_all [connTokens]

theorem tryConn_mem {l : List Char} {w : String} {rem : List Char}
    (h : tryConn l = some (w, rem)) : w ∈ connTokens := by
  rcases l with _ | ⟨c, rest⟩
  · simp [tryConn] at h
  · simp only [tryConn] at h
    by_cases hc : isSpaceCh c
    · rw [if_pos hc] at h
      rcases hm : matchConn (skipSp rest) with _ | ⟨w2, r2⟩
      · simp [hm] at h
      · simp only [hm] at h
        rcases r2 with _ | ⟨d, r3⟩
        · simp at h
        · by_cases hd : isSpaceCh d = true
          · simp only [hd, if_true, Option.some.injEq, Prod.mk.injEq] at h
            exact h.1 ▸ matchConn_mem hm
          · simp [hd] at h
    · rw [if_neg hc] at h; exact absurd h (by simp)

theorem reSplitAux_shape : ∀ (fuel : Nat) (acc l : List Char),
    (reSplitAux fuel acc l).length = 1 ∨ ∃ w ∈ reSplitAux fuel acc l, w ∈ connTokens := by
  intro fuel
  induction fuel with
  | zero => intro acc l; left; rfl
  | succ n ih =>
    intro acc l
    rcases l with _ | ⟨c, rest⟩
    · left; rfl
    · simp only [reSplitAux]
      rcases htc : tryConn (c :: rest) with _ | ⟨w, rem⟩
      · simp only
        exact ih (c :: acc) rest
      · simp only
        right
        exact ⟨w, by simp, tryConn_mem htc⟩

theorem tokensOf_small {q : String} (hA : "AND" ∉ tokensOf q) (hO : "OR" ∉ tokensOf q)
    (hN : "NOT" ∉ tokensOf q) : (tokensOf q).length ≤ 1 := by
  have hrc : reSplitConn (pyUpper q) =
      reSplitAux ((pyUpper q).data.length + 1) [] (pyUpper q).data := rfl
  rcases reSplitAux_shape ((pyUpper q).data.length + 1) [] (pyUpper q).data with h | ⟨w, hw, hwc⟩
  · have h1 : (tokensOf q).length ≤ ((reSplitConn (pyUpper q)).map pyStrip).length :=
      List.length_filter_le _ _
    rw [List.length_map, hrc] at h1
    exact h1.trans (le_of_eq h)
  · exfalso
    rw [← hrc] at hw
    have hwcases : w = "AND" ∨ w = "OR" ∨ w = "NOT" := by simpa [connTokens] using hwc
    have hmemtok : w ∈ tokensOf q := by
      have hmem : pyStrip w ∈ (reSplitConn (pyUpper q)).map pyStrip :=
        List.mem_map_of_mem pyStrip hw
      have hst : pyStrip w = w := by rcases hwcases with rfl | rfl | rfl <;> rfl
      have hne : w ≠ "" := by rcases hwcases with rfl | rfl | rfl <;> decide
      unfold tokensOf
      refine List.mem_filter.mpr ⟨hst ▸ hmem, ?_⟩
      simpa using hne
    rcases hwcases with rfl | rfl | rfl
    exacts [hA hmemtok, hO hmemtok, hN hmemtok]

theorem testQuery_branches (q : String) (d : Option String) (h : ¬ (tokensOf q).length = 1) :
    ("AND" ∈ tokensOf q →
      testQuery q d = (keywordsOf (tokensOf q)).all (fun kw => containsUpper kw d)) ∧
    ("AND" ∉ tokensOf q → "OR" ∈ tokensOf q →
      testQuery q d = (keywordsOf (tokensOf q)).any (fun kw => containsUpper kw d)) := by
  constructor
  · intro hA; unfold testQuery; rw [if_neg h, if_pos hA]
  · intro hA hO; unfold testQuery; rw [if_neg h, if_neg hA, if_pos hO]

/-! ## Claims -/

/-- Claim C6 (confirmed): compiling the empty query yields a predicate accepting
every description (missing ones included), and filtering any row set with the
empty query returns it unchanged. -/
theorem c6_empty_query_accepts_all (d : Option String) (rows : List Row) :
    testQuery "" d = true ∧ filter_descriptions rows "" = rows := by
  have ht : tokensOf "" = [] := rfl
  constructor
  · simp [testQuery, ht]
  · simp [filter_descriptions, ht]

/-- Claim C9 (confirmed): the average transaction value is the guarded quotient:
it equals 0 when the distinct-transaction count is 0, and equals total sales
divided by the count when the count is positive. -/
theorem c9_avg_transaction_guarded (rows : List Row) :
    (total_transactions rows = 0 → avg_transaction rows = 0) ∧
    (0 < total_transactions rows →
      avg_transaction rows = total_sales rows / (total_transactions rows : ℚ)) := by
  constructor
  · intro h; unfold avg_transaction; rw [if_neg (by omega)]
  · intro h; unfold avg_transaction; rw [if_pos h]

/-- Witness for C9 at a one-row view: the count is positive and the average is
the quotient. -/
theorem c9_avg_transaction_guarded_witness :
    0 < total_transactions
        [⟨"536365", ⟨2010, 12, 1, 30600⟩, some "WHITE HANGING HEART", 6, 3, "United Kingdom", some 17850⟩] ∧
    avg_transaction
        [⟨"536365", ⟨2010, 12, 1, 30600⟩, some "WHITE HANGING HEART", 6, 3, "United Kingdom", some 17850⟩] =
      total_sales
          [⟨"536365", ⟨2010, 12, 1, 30600⟩, some "WHITE HANGING HEART", 6, 3, "United Kingdom", some 17850⟩] /
        (total_transactions
            [⟨"536365", ⟨2010, 12, 1, 30600⟩, some "WHITE HANGING HEART", 6, 3, "United Kingdom", some 17850⟩] : ℚ) :=
  ⟨by decide, (c9_avg_transaction_guarded _).2 (by decide)⟩

/-- Counterexample to claim C7 as stated: the whitespace-only query `" "` and
the connective-only query `" AND AND "` are non-empty strings, yet their
compiled predicates accept a row with a missing description (the first falls
through to the unfiltered fallback, the second is a conjunction over zero
keywords). -/
theorem c7_null_description_counterexample :
    (" " : String) ≠ "" ∧ testQuery " " none = true ∧
    (" AND AND " : String) ≠ "" ∧ testQuery " AND AND " none = true := by decide

/-- Claim C7 (corrected): a row with a missing description is never accepted by
the compiled predicate of any query whose token split yields at least one
non-connective keyword token (the exceptions the counterexample forces are
queries with no tokens at all and AND-queries whose tokens are all
connectives). -/
theorem c7_null_description_never_matches (q : String)
    (h : keywordsOf (tokensOf q) ≠ []) : testQuery q none = false := by
  by_cases h1 : (tokensOf q).length = 1
  · unfold testQuery; rw [if_pos h1]; rfl
  · by_cases hA : "AND" ∈ tokensOf q
    · unfold testQuery; rw [if_neg h1, if_pos hA]
      rcases hk : keywordsOf (tokensOf q) with _ | ⟨k, ks⟩
      · exact absurd hk h
      · simp [List.all_cons, containsUpper]
    · by_cases hO : "OR" ∈ tokensOf q
      · unfold testQuery; rw [if_neg h1, if_neg hA, if_pos hO]
        exact List.any_eq_false.mpr (fun x _ h => Bool.false_ne_true h)
      · by_cases hN : "NOT" ∈ tokensOf q
        · unfold testQuery; rw [if_neg h1, if_neg hA, if_neg hO, if_pos hN]; rfl
        · exfalso
          have hsmall := tokensOf_small hA hO hN
          have hzero : (tokensOf q).length = 0 := by omega
          have hnil : tokensOf q = [] := List.length_eq_zero.mp hzero
          exact h (by rw [hnil]; rfl)

/-- Witness for the corrected C7 at the query `"RED"`: it has a keyword token
and rejects a missing description. -/
theorem c7_null_description_never_matches_witness :
    keywordsOf (tokensOf "RED") ≠ [] ∧ testQuery "RED" none = false :=
  ⟨by decide, c7_null_description_never_matches "RED" (by decide)⟩

/-- Counterexample to claim C1 as stated: the query `" AND "` tokenizes to the
single connective token `"AND"`, so the claim's conjunction over its zero
non-connective tokens accepts every description, but the code's single-token
branch instead searches for the literal substring `"AND"` and rejects `"X"`. -/
theorem c1_and_or_counterexample :
    ("AND" ∈ tokensOf " AND ") ∧
    (keywordsOf (tokensOf " AND ")).all (fun kw => containsUpper kw (some "X")) = true ∧
    testQuery " AND " (some "X") = false := by decide

/-- Claim C1 (corrected): provided the token split yields at least two tokens,
a query whose tokens contain `AND` compiles to the conjunction of "description
contains keyword" over the non-connective tokens, and a query whose tokens
contain `OR` but not `AND` compiles to the corresponding disjunction (matching
is on uppercased strings on both sides, hence case-insensitive). -/
theorem c1_and_or_semantics (q : String) (d : String) (h : 2 ≤ (tokensOf q).length) :
    ("AND" ∈ tokensOf q →
      testQuery q (some d) = (keywordsOf (tokensOf q)).all (fun kw => containsUpper kw (some d))) ∧
    ("AND" ∉ tokensOf q → "OR" ∈ tokensOf q →
      testQuery q (some d) = (keywordsOf (tokensOf q)).any (fun kw => containsUpper kw (some d))) :=
  testQuery_branches q (some d) (by omega)

/-- Witness for the corrected C1 at `compile("RED AND HEART")` applied to
`"RED HANGING HEART"`. -/
theorem c1_and_or_semantics_witness :
    2 ≤ (tokensOf "RED AND HEART").length ∧
    testQuery "RED AND HEART" (some "RED HANGING HEART") =
      (keywordsOf (tokensOf "RED AND HEART")).all
        (fun kw => containsUpper kw (some "RED HANGING HEART")) :=
  ⟨by decide, (c1_and_or_semantics "RED AND HEART" "RED HANGING HEART" (by decide)).1 (by decide)⟩

theorem two_distinct_mem_length {α : Type} {l : List α} {a b : α}
    (ha : a ∈ l) (hb : b ∈ l) (hab : a ≠ b) : ¬ l.length = 1 := by
  intro hl
  rcases List.length_eq_one.mp hl with ⟨x, rfl⟩
  rw [List.mem_singleton] at ha hb
  exact hab (ha.trans hb.symm)

/-- Claim C3 (confirmed): when more than one kind of connective token occurs in
the query, exactly one single-operator rule applies, by the priority
AND > OR > NOT: with an `AND` token present the conjunction rule over all
non-connective tokens runs; otherwise, with an `OR` token present, the
disjunction rule runs (so the `NOT` rule runs only when neither is present). -/
theorem c3_connective_priority (q : String) (d : Option String)
    (h : ("AND" ∈ tokensOf q ∧ "OR" ∈ tokensOf q) ∨
         ("AND" ∈ tokensOf q ∧ "NOT" ∈ tokensOf q) ∨
         ("OR" ∈ tokensOf q ∧ "NOT" ∈ tokensOf q)) :
    ("AND" ∈ tokensOf q →
      testQuery q d = (keywordsOf (tokensOf q)).all (fun kw => containsUpper kw d)) ∧
    ("AND" ∉ tokensOf q → "OR" ∈ tokensOf q →
      testQuery q d = (keywordsOf (tokensOf q)).any (fun kw => containsUpper kw d)) := by
  have hlen : ¬ (tokensOf q).length = 1 := by
    rcases h with ⟨h1, h2⟩ | ⟨h1, h2⟩ | ⟨h1, h2⟩ <;>
      exact two_distinct_mem_length h1 h2 (by decide)
  exact testQuery_branches q d hlen

/-- Witness for C3 at the mixed query `"RED AND BLUE OR GREEN"`: the `AND` rule
(conjunction) is the one that runs. -/
theorem c3_connective_priority_witness :
    (("AND" ∈ tokensOf "RED AND BLUE OR GREEN" ∧ "OR" ∈ tokensOf "RED AND BLUE OR GREEN") ∨
     ("AND" ∈ tokensOf "RED AND BLUE OR GREEN" ∧ "NOT" ∈ tokensOf "RED AND BLUE OR GREEN") ∨
     ("OR" ∈ tokensOf "RED AND BLUE OR GREEN" ∧ "NOT" ∈ tokensOf "RED AND BLUE OR GREEN")) ∧
    testQuery "RED AND BLUE OR GREEN" (some "NAVY BLUE JUMPER") =
      (keywordsOf (tokensOf "RED AND BLUE OR GREEN")).all
        (fun kw => containsUpper kw (some "NAVY BLUE JUMPER")) :=
  ⟨by decide,
   (c3_connective_priority "RED AND BLUE OR GREEN" (some "NAVY BLUE JUMPER") (by decide)).1
     (by decide)⟩

/-- Counterexample to claim C4 as stated: the resolver has no digit branch at
all, so `resolve("3")` is `None`, not `3`. -/
theorem c4_digit_counterexample :
    (∀ c ∈ (pyStrip "3").data, c ∈ digitChars) ∧ month_name_to_number "3" = none := by decide

/-- Claim C4 (corrected): a token consisting entirely of digit characters
(after trimming) is never resolved — the resolver only compares against month
names and abbreviations, which contain no digits, so every digit-only token
(in range or not) yields no value. -/
theorem c4_digit_tokens_rejected (s : String)
    (h : ∀ c ∈ (pyStrip s).data, c ∈ digitChars) : month_name_to_number s = none := by
  have hm : ∀ c ∈ (pyLower (pyStrip s)).data, c ∈ digitChars := by
    intro c hc
    simp only [pyLower, data_mk, List.mem_map] at hc
    rcases hc with ⟨c', hc', rfl⟩
    have h9 := h c' hc'
    simp only [digitChars] at h9
    fin_cases h9 <;> decide
  have key : ∀ (t : String), (∃ c ∈ t.data, c ∉ digitChars) →
      pyLower (pyStrip s) ≠ t := by
    intro t ⟨c, hct, hcd⟩ he
    rw [he] at hm
    exact hcd (hm c hct)
  unfold month_name_to_number
  apply List.find?_eq_none.mpr
  intro i hi
  have hrange : List.range' 1 12 = [1, 2, 3, 4, 5, 6, 7, 8, 9, 10, 11, 12] := rfl
  rw [hrange] at hi
  simp only [List.mem_cons, List.not_mem_nil, or_false] at hi
  rcases hi with rfl | rfl | rfl | rfl | rfl | rfl | rfl | rfl | rfl | rfl | rfl | rfl <;>
    · intro hp
      simp only [Bool.or_eq_true, beq_iff_eq] at hp
      rcases hp with he | he <;> exact key _ (by decide) he

/-- Witness for the corrected C4 at the out-of-range digit token `"13"`. -/
theorem c4_digit_tokens_rejected_witness :
    (∀ c ∈ (pyStrip "13").data, c ∈ digitChars) ∧ month_name_to_number "13" = none :=
  ⟨by decide, c4_digit_tokens_rejected "13" (by decide)⟩

/-- Claim C5 (confirmed): on a sentence containing `"last month"`
(case-insensitively) the extracted range runs from the first day of the month
preceding the month of the dataset maximum date `M` to the first day of the
month of `M` minus one day (both at midnight); a sentence without the phrase
yields no date filter. -/
theorem c5_last_month_range (q : String) (M : DT) (hm : 1 ≤ M.month) :
    (strContains (pyLower q) "last month" = true →
      date_filter q M = some (specPrevMonthStart M, specPrevMonthEnd M)) ∧
    (strContains (pyLower q) "last month" = false → date_filter q M = none) := by
  constructor
  · intro h
    unfold date_filter
    rw [if_pos h]
    have hend : last_month_end M = specPrevMonthEnd M := rfl
    have hstart : last_month_start M = specPrevMonthStart M := by
      unfold last_month_start last_month_end predDay specPrevMonthStart
      by_cases h2 : M.month = 1
      · simp [h2]
      · have h3 : 1 < M.month := by omega
        simp [h2, h3]
    rw [hend, hstart]
  · intro h
    unfold date_filter
    rw [if_neg (by simp [h])]

/-- Witness for C5 at the sentence of the specification and dataset maximum
date 2011-12-09: the extracted range is 2011-11-01 to 2011-11-30. -/
theorem c5_last_month_range_witness :
    1 ≤ (⟨2011, 12, 9, 0⟩ : DT).month ∧
    date_filter "Show me last month sales in UK" ⟨2011, 12, 9, 0⟩ =
      some (⟨2011, 11, 1, 0⟩, ⟨2011, 11, 30, 0⟩) := by
  refine ⟨by decide, ?_⟩
  have h := (c5_last_month_range "Show me last month sales in UK" ⟨2011, 12, 9, 0⟩ (by decide)).1
    (by decide)
  rw [h]
  rfl

theorem mk_data (s : String) : String.mk s.data = s := rfl

theorem prefAt_len : ∀ (p l : List Char), prefAt p l = true → p.length ≤ l.length := by
  intro p
  induction p with
  | nil => intro l _; simp
  | cons a as ih =>
    intro l h
    rcases l with _ | ⟨b, bs⟩
    · exact absurd h (by simp [prefAt])
    · simp only [prefAt, Bool.and_eq_true] at h
      have := ih bs h.2
      simp only [List.length_cons]
      omega

theorem firstOcc_bound : ∀ (pat l : List Char) (i : Nat),
    firstOcc pat l = some i → i + pat.length ≤ l.length := by
  intro pat l
  induction l with
  | nil =>
    intro i h
    unfold firstOcc at h
    by_cases hp : prefAt pat [] = true
    · rw [if_pos hp] at h
      obtain rfl : (0 : Nat) = i := Option.some.inj h
      simpa using prefAt_len pat [] hp
    · rw [if_neg hp] at h; exact absurd h (by simp)
  | cons c t ih =>
    intro i h
    unfold firstOcc at h
    by_cases hp : prefAt pat (c :: t) = true
    · rw [if_pos hp] at h
      obtain rfl : (0 : Nat) = i := Option.some.inj h
      simpa using prefAt_len pat (c :: t) hp
    · rw [if_neg hp] at h
      rcases Option.map_eq_some'.mp h with ⟨j, hj, rfl⟩
      have := ih j hj
      simp only [List.length_cons]
      omega

theorem pySplitAux_ne_nil (pat : List Char) (fuel : Nat) (l : List Char) :
    pySplitAux pat fuel l ≠ [] := by
  rcases fuel with _ | f
  · simp [pySplitAux]
  · unfold pySplitAux
    rcases h : firstOcc pat l with _ | i <;> simp [h]

theorem pySplitAux_head (pat : List Char) (fuel : Nat) (l : List Char) (hf : 0 < fuel) :
    (pySplitAux pat fuel l).headD "" =
      (match firstOcc pat l with
       | some i => String.mk (l.take i)
       | none => String.mk l) := by
  rcases fuel with _ | f
  · omega
  · unfold pySplitAux
    rcases h : firstOcc pat l with _ | i <;> simp [h]

theorem pySplit_head (s : String) : (pySplit s "NOT").headD "" = cutBefore s "NOT" := by
  unfold pySplit cutBefore
  rw [pySplitAux_head "NOT".data (s.data.length + 1) s.data (by omega)]

theorem pySplit_second (s : String) :
    (if 1 < (pySplit s "NOT").length then pyStrip ((pySplit s "NOT").getD 1 "") else "") =
      pyStrip (cutBefore (cutAfter s "NOT") "NOT") := by
  unfold pySplit
  rcases h : firstOcc "NOT".data s.data with _ | i
  · have hca : cutAfter s "NOT" = "" := by unfold cutAfter; rw [h]
    have hps : pySplitAux "NOT".data (s.data.length + 1) s.data = [String.mk s.data] := by
      simp only [pySplitAux, h]
    rw [hps, hca]
    rw [if_neg (by simp)]
    decide
  · have hca : cutAfter s "NOT" = String.mk (s.data.drop (i + "NOT".data.length)) := by
      unfold cutAfter; rw [h]
    have hps : pySplitAux "NOT".data (s.data.length + 1) s.data =
        String.mk (s.data.take i) ::
          pySplitAux "NOT".data s.data.length (s.data.drop (i + "NOT".data.length)) := by
      simp only [pySplitAux, h]
    rw [hps, hca]
    have hbound : i + 3 ≤ s.data.length := by
      have := firstOcc_bound "NOT".data s.data i h
      simpa using this
    have hnn := pySplitAux_ne_nil "NOT".data s.data.length (s.data.drop (i + "NOT".data.length))
    have hh := pySplitAux_head "NOT".data s.data.length
      (s.data.drop (i + "NOT".data.length)) (by omega)
    rcases htail : pySplitAux "NOT".data s.data.length (s.data.drop (i + "NOT".data.length))
      with _ | ⟨x, xs⟩
    · exact absurd htail hnn
    · rw [htail] at hh
      simp only [List.headD_cons] at hh
      rw [if_pos (by simp only [List.length_cons]; omega)]
      rw [show (String.mk (s.data.take i) :: x :: xs).getD 1 "" = x from rfl]
      rcases h2 : firstOcc "NOT".data (s.data.drop (i + "NOT".data.length)) with _ | j
      · simp only [h2] at hh
        have hcb : cutBefore (String.mk (s.data.drop (i + "NOT".data.length))) "NOT" =
            String.mk (s.data.drop (i + "NOT".data.length)) := by
          unfold cutBefore; rw [data_mk, h2]
        rw [hcb, hh]
      · simp only [h2] at hh
        have hcb : cutBefore (String.mk (s.data.drop (i + "NOT".data.length))) "NOT" =
            String.mk ((s.data.drop (i + "NOT".data.length)).take j) := by
          unfold cutBefore; rw [data_mk, h2]
        rw [hcb, hh]

/-- Counterexample to claim C2 as stated: in `"HEART NOT RED NOT BLUE"` the
code excludes the segment between the two `"NOT"`s (`"RED"`), not everything
after the first `"NOT"` (`"RED NOT BLUE"`), so the claim's predicate accepts
the description `"HEART RED"` while the code rejects it. -/
theorem c2_not_split_counterexample :
    ("NOT" ∈ tokensOf "HEART NOT RED NOT BLUE") ∧
    ("AND" ∉ tokensOf "HEART NOT RED NOT BLUE") ∧
    ("OR" ∉ tokensOf "HEART NOT RED NOT BLUE") ∧
    strContains (pyUpper "HEART RED")
      (pyStrip (cutBefore (pyUpper "HEART NOT RED NOT BLUE") "NOT")) = true ∧
    strContains (pyUpper "HEART RED")
      (pyStrip (cutAfter (pyUpper "HEART NOT RED NOT BLUE") "NOT")) = false ∧
    testQuery "HEART NOT RED NOT BLUE" (some "HEART RED") = false := by decide

/-- Claim C2 (corrected): when the token split yields more than one token,
`NOT` is a token and neither `AND` nor `OR` is, the predicate accepts a
description iff it contains the trimmed segment of the uppercased query before
the first occurrence of `"NOT"` and does not contain the trimmed segment
between the first and second occurrences of `"NOT"` (everything after the
first occurrence only when `"NOT"` occurs once). -/
theorem c2_not_semantics (q : String) (d : String)
    (h1 : ¬ (tokensOf q).length = 1) (hA : "AND" ∉ tokensOf q)
    (hO : "OR" ∉ tokensOf q) (hN : "NOT" ∈ tokensOf q) :
    testQuery q (some d) =
      (strContains (pyUpper d) (pyStrip (cutBefore (pyUpper q) "NOT")) &&
        !(strContains (pyUpper d) (pyStrip (cutBefore (cutAfter (pyUpper q) "NOT") "NOT")))) := by
  unfold testQuery
  rw [if_neg h1, if_neg hA, if_neg hO, if_pos hN, pySplit_head, pySplit_second]
  rfl

/-- Witness for the corrected C2 at `compile("HEART NOT RED")`: accepts
`"HEART"` per the include/exclude reading. -/
theorem c2_not_semantics_witness :
    ¬ (tokensOf "HEART NOT RED").length = 1 ∧
    "AND" ∉ tokensOf "HEART NOT RED" ∧
    "OR" ∉ tokensOf "HEART NOT RED" ∧
    "NOT" ∈ tokensOf "HEART NOT RED" ∧
    testQuery "HEART NOT RED" (some "HEART") =
      (strContains (pyUpper "HEART") (pyStrip (cutBefore (pyUpper "HEART NOT RED") "NOT")) &&
        !(strContains (pyUpper "HEART")
            (pyStrip (cutBefore (cutAfter (pyUpper "HEART NOT RED") "NOT") "NOT")))) :=
  ⟨by decide, by decide, by decide, by decide,
   c2_not_semantics "HEART NOT RED" "HEART" (by decide) (by decide) (by decide) (by decide)⟩

/-- Claim C10 (confirmed): whenever the "last month" filter fires, the range's
end bound is the midnight timestamp of the last calendar day of the preceding
month, rows are kept exactly when start ≤ invoice timestamp ≤ end, and hence
every row dated on that last calendar day with a time of day after midnight is
excluded by the filter. -/
theorem c10_end_bound_excludes_last_day (q : String) (M : DT)
    (h : strContains (pyLower q) "last month" = true) :
    date_filter q M = some (last_month_start M, last_month_end M) ∧
    (last_month_end M).sec = 0 ∧
    (last_month_end M).day = daysInMonth (last_month_end M).year (last_month_end M).month ∧
    (∀ (rows : List Row) (r : Row),
      r ∈ applyDateFilter rows (last_month_start M) (last_month_end M) ↔
        r ∈ rows ∧
          (dtLe (last_month_start M) r.invoiceDate &&
            dtLe r.invoiceDate (last_month_end M)) = true) ∧
    (∀ (rows : List Row) (r : Row),
      r.invoiceDate.year = (last_month_end M).year →
      r.invoiceDate.month = (last_month_end M).month →
      r.invoiceDate.day = (last_month_end M).day →
      0 < r.invoiceDate.sec →
      r ∉ applyDateFilter rows (last_month_start M) (last_month_end M)) := by
  have hsec : (last_month_end M).sec = 0 := by
    unfold last_month_end predDay
    split_ifs <;> rfl
  refine ⟨?_, hsec, ?_, ?_, ?_⟩
  · unfold date_filter
    rw [if_pos h]
  · unfold last_month_end predDay
    split_ifs with h1 h2
    · simp at h1
    · rfl
    · norm_num [daysInMonth]
  · intro rows r
    unfold applyDateFilter
    exact List.mem_filter
  · intro rows r h1 h2 h3 h4 hmem
    unfold applyDateFilter at hmem
    rw [List.mem_filter] at hmem
    have hb := hmem.2
    rw [Bool.and_eq_true] at hb
    have h5 := hb.2
    unfold dtLe at h5
    rw [if_pos h1, if_pos h2, if_pos h3, hsec] at h5
    rw [decide_eq_true_iff] at h5
    omega

/-- Witness for C10: with dataset maximum 2011-12-09, a row timestamped at
2011-11-30 01:00 lies on the last calendar day of the extracted range but after
midnight, and is excluded. -/
theorem c10_end_bound_excludes_last_day_witness :
    date_filter "sales last month" ⟨2011, 12, 9, 0⟩ =
      some (⟨2011, 11, 1, 0⟩, ⟨2011, 11, 30, 0⟩) ∧
    (⟨"537001", ⟨2011, 11, 30, 3600⟩, some "RED MUG", 1, 2, "EIRE", some 14911⟩ : Row) ∉
      applyDateFilter
        [⟨"537001", ⟨2011, 11, 30, 3600⟩, some "RED MUG", 1, 2, "EIRE", some 14911⟩]
        (last_month_start ⟨2011, 12, 9, 0⟩) (last_month_end ⟨2011, 12, 9, 0⟩) := by
  have h := c10_end_bound_excludes_last_day "sales last month" ⟨2011, 12, 9, 0⟩ (by decide)
  constructor
  · rw [h.1]; rfl
  · exact h.2.2.2.2 _ _ rfl rfl rfl (by norm_num)

theorem sum_map_addQ {α : Type} (keys : List α) (f g : α → ℚ) :
    (keys.map (fun k => f k + g k)).sum = (keys.map f).sum + (keys.map g).sum := by
  induction keys with
  | nil => simp
  | cons a t ih => simp only [List.map_cons, List.sum_cons, ih]; ring

theorem sum_ite_not_mem {α : Type} [DecidableEq α] {a : α} (keys : List α)
    (h : a ∉ keys) (v : ℚ) :
    (keys.map (fun k => if a = k then v else 0)).sum = 0 := by
  induction keys with
  | nil => simp
  | cons b t ih =>
    simp only [List.map_cons, List.sum_cons]
    rw [if_neg (by intro he; exact h (he ▸ List.mem_cons_self b t))]
    rw [ih (fun hm => h (List.mem_cons_of_mem b hm))]
    ring

theorem sum_ite_mem {α : Type} [DecidableEq α] {a : α} {keys : List α}
    (hnd : keys.Nodup) (ha : a ∈ keys) (v : ℚ) :
    (keys.map (fun k => if a = k then v else 0)).sum = v := by
  induction keys with
  | nil => simp at ha
  | cons b t ih =>
    rw [List.nodup_cons] at hnd
    simp only [List.map_cons, List.sum_cons]
    rcases List.mem_cons.mp ha with rfl | hat
    · rw [if_pos rfl, sum_ite_not_mem t hnd.1 v]
      ring
    · rw [if_neg (by intro he; exact hnd.1 (he ▸ hat)), ih hnd.2 hat]
      ring

theorem group_total (rows : List Row) (keys : List (Nat × Nat)) (hnd : keys.Nodup)
    (hcov : ∀ r ∈ rows, monthKey r ∈ keys) :
    (keys.map (fun k => ((rows.filter (fun r => monthKey r = k)).map totalPrice).sum)).sum
      = (rows.map totalPrice).sum := by
  induction rows with
  | nil => simp
  | cons r rs ih =>
    have hcov2 : ∀ x ∈ rs, monthKey x ∈ keys :=
      fun x hx => hcov x (List.mem_cons_of_mem r hx)
    have hr : monthKey r ∈ keys := hcov r (List.mem_cons_self r rs)
    have hfun : ∀ k ∈ keys,
        (((r :: rs).filter (fun x => monthKey x = k)).map totalPrice).sum =
          (if monthKey r = k then totalPrice r else 0) +
            ((rs.filter (fun x => monthKey x = k)).map totalPrice).sum := by
      intro k _
      by_cases hk : monthKey r = k
      · simp [List.filter_cons, hk]
      · simp [List.filter_cons, hk]
    rw [List.map_congr_left hfun, sum_map_addQ, sum_ite_mem hnd hr, ih hcov2]
    simp

/-- Claim C8 (confirmed): for the Month aggregation, the group keys are
pairwise distinct, a `(year, month)` pair is a group key exactly when it occurs
among the rows' invoice dates, and the per-group sums add up to the sum of
`Quantity * UnitPrice` over the whole row set (conservation of the total). -/
theorem c8_month_groups_conserve_total (rows : List Row) :
    ((sales_per_month rows).map Prod.fst).Nodup ∧
    (∀ k, k ∈ (sales_per_month rows).map Prod.fst ↔ k ∈ rows.map monthKey) ∧
    ((sales_per_month rows).map Prod.snd).sum = (rows.map totalPrice).sum := by
  have hperm : List.Perm (monthGroupKeys rows) ((rows.map monthKey).dedup) :=
    List.perm_insertionSort keyLe _
  have hfst : (sales_per_month rows).map Prod.fst = monthGroupKeys rows := by
    unfold sales_per_month
    rw [List.map_map]
    have hcomp : (Prod.fst ∘ fun k =>
        (k, ((rows.filter (fun r => monthKey r = k)).map totalPrice).sum)) = id := rfl
    rw [hcomp, List.map_id]
  refine ⟨?_, ?_, ?_⟩
  · rw [hfst]
    exact hperm.nodup_iff.mpr ((rows.map monthKey).nodup_dedup)
  · intro k
    rw [hfst]
    rw [hperm.mem_iff]
    exact List.mem_dedup
  · have hsnd : (sales_per_month rows).map Prod.snd =
        (monthGroupKeys rows).map
          (fun k => ((rows.filter (fun r => monthKey r = k)).map totalPrice).sum) := by
      unfold sales_per_month
      rw [List.map_map]
      rfl
    rw [hsnd]
    rw [(hperm.map _).sum_eq]
    exact group_total rows _ ((rows.map monthKey).nodup_dedup)
      (fun r hr => List.mem_dedup.mpr (List.mem_map_of_mem monthKey hr))
